import Mathlib

/-
Verification development for the pathed module (pathed/__init__.py).

The module models a filesystem subtree as an object graph: an abstract base
class Pathed (identity, timestamps, refresh contract), a Directory subclass
(recursive scan into sub_dirs and files), and a File subclass (size and
optional content hash).

Shallow embedding conventions:
- Absolute paths are lists of components (os.path.join path item = path ++ [item]).
- Python floats used for modification times are modelled as Int (only equality
  between observed timestamps matters to the code).
- File contents are byte lists (List Nat); the blake3 hex digest is an
  uninterpreted parameter digest : List Nat -> String threaded through the
  definitions, since the code only ever compares digests for equality.
- Exceptions are modelled with Except; an attribute read that Python would
  fail with AttributeError (reading a never-assigned field) is modelled by
  Option, with none standing for the unassigned attribute.
- The live filesystem is FSEntry (a file with mtime and contents, a directory
  with mtime and listing in listing order, or some other kind of entry) for
  construction, and LiveFS (mtime and contents keyed by path) for refresh.
- The process-global file_count counter and its print are diagnostics with no
  bearing on any claim and are not modelled.
-/

/-- Result of File.__hash_file: Python returns a str hexdigest for non-empty
contents but the bytes literal for empty contents, so the two arms of the
result have different types; this sum type mirrors that. -/
inductive HashResult where
  | hexdigest (s : String)
  | emptyBytes
deriving DecidableEq

/-- A live filesystem entry at scan time: a regular file (os.path.isfile), a
directory (os.path.isdir) with its os.listdir listing, or anything else
(socket, device, broken symlink, ...). -/
inductive FSEntry where
  | file (mtime : Int) (content : List Nat)
  | dir (mtime : Int) (entries : List (String × FSEntry))
  | other

/-- True for directory entries (os.path.isdir on a listed item). -/
def FSEntry.isDirB : FSEntry → Bool
  | .dir _ _ => true
  | _ => false

/-- True for regular-file entries (os.path.isfile on a listed item). -/
def FSEntry.isFileB : FSEntry → Bool
  | .file _ _ => true
  | _ => false

/-- The exceptions the module raises: NotADirectoryError (Directory
validation), FileExistsError (File validation), and the EnvironmentError
raised as Unknown Directory Element during a scan.  Each carries the path
the Python message names. -/
inductive PathedError where
  | notADirectory (path : List String)
  | fileExists (path : List String)
  | unknownEntry (path : List String)
deriving DecidableEq

/-- The dynamic class of a Pathed object, used by Pathed.__init__ to compute
issubclass(self.__class__, Directory) and issubclass(self.__class__, File). -/
inductive PathedClass where
  | directory
  | file
deriving DecidableEq

/-- The attributes Pathed.__init__ stores (path, name, last_modified,
is_dir, is_file, hash_files).  created_at and __last_refreshed are stored by
the source but never read afterwards and are omitted. -/
structure Pathed where
  path : List String
  name : String
  last_modified : Int
  is_dir : Bool
  is_file : Bool
  hash_files : Bool
deriving DecidableEq

/-- Pathed.__init__ after a successful validity check: canonicalizes the path
(already canonical here), derives name as the final component, snapshots the
modification time, and computes the capability tags from the dynamic class. -/
def Pathed.init (cls : PathedClass) (path : List String) (mtime : Int)
    (hash_files : Bool) : Pathed :=
  ⟨path, path.getLastD "",
    mtime,
    (match cls with | .directory => true | .file => false),
    (match cls with | .directory => false | .file => true),
    hash_files⟩

/-- Pathed.refresh: compare the stored last_modified with the live
modification time; on a difference, record the new value and report true. -/
def Pathed.refresh (live_mtime : Int) (p : Pathed) : Pathed × Bool :=
  if p.last_modified = live_mtime then (p, false)
  else (⟨p.path, p.name, live_mtime, p.is_dir, p.is_file, p.hash_files⟩, true)

/-- The live filesystem as seen by refresh: os.path.getmtime and a full
content read, keyed by absolute path. -/
structure LiveFS where
  mtime : List String → Int
  content : List String → List Nat

/-- The attributes of a File object.  filesize and hash are Option because
File.__init__ only annotates them; none models an attribute that was never
assigned (reading it raises AttributeError in Python). -/
structure File where
  base : Pathed
  filesize : Option Nat
  hash : Option HashResult
deriving DecidableEq

/-- File.__hash_file: read the full contents; return the hex digest when the
contents are non-empty and the empty bytes value otherwise. -/
def hash_file (digest : List Nat → String) (content : List Nat) : HashResult :=
  if content.length > 0 then .hexdigest (digest content) else .emptyBytes

/-- File.__calculate_hash_and_size: assign the hash only when
_should_hash_files holds, then assign filesize from os.path.getsize. -/
def File.calculate_hash_and_size (digest : List Nat → String)
    (content : List Nat) (f : File) : File :=
  let f1 : File :=
    if f.base.hash_files then ⟨f.base, f.filesize, some (hash_file digest content)⟩
    else f
  ⟨f1.base, some content.length, f1.hash⟩

/-- File.__init__(path, parent_dir): validate with os.path.isfile, call
Pathed.__init__ without a hash_files argument (so the stored flag is the
default False), annotate filesize and hash without assigning them, then run
__calculate_hash_and_size.  The content argument is the live file content,
the mtime argument its os.path.getmtime. -/
def File.init (digest : List Nat → String) (path : List String) (mtime : Int)
    (content : List Nat) : File :=
  let base := Pathed.init .file path mtime false
  File.calculate_hash_and_size digest content ⟨base, none, none⟩

/-- The File.hash property: run __calculate_hash_and_size on the live
contents, then read self.__hash.  The returned Option is none exactly when
__hash was never assigned, which in Python raises AttributeError. -/
def File.hash_access (digest : List Nat → String) (live_content : List Nat)
    (f : File) : File × Option HashResult :=
  let f1 := File.calculate_hash_and_size digest live_content f
  (f1, f1.hash)

/-- File.refresh: run the base refresh on the modification time; when
hashing is enabled, recompute hash and size and report a change when the
hash differs from the previously stored one. -/
def File.refresh (digest : List Nat → String) (fs : LiveFS) (f : File) :
    File × Bool :=
  let pr := Pathed.refresh (fs.mtime f.base.path) f.base
  let f1 : File := ⟨pr.1, f.filesize, f.hash⟩
  if f1.base.hash_files then
    let old_hash := f1.hash
    let f2 := File.calculate_hash_and_size digest (fs.content f1.base.path) f1
    (f2, if old_hash = f2.hash then pr.2 else true)
  else (f1, pr.2)

/-- The files loop of Directory.refresh: for each file the source runs
refreshed = refreshed or file.refresh(), and the Python or short-circuits, so
the call is skipped (the file is left untouched) once refreshed is true. -/
def File.refreshLoop (digest : List Nat → String) (fs : LiveFS) :
    Bool → List File → List File × Bool
  | r, [] => ([], r)
  | r, f :: rest =>
    if r then
      let p := File.refreshLoop digest fs r rest
      (f :: p.1, p.2)
    else
      let fr := File.refresh digest fs f
      let p := File.refreshLoop digest fs fr.2 rest
      (fr.1 :: p.1, p.2)

/-- The attributes of a Directory object: the Pathed base, the lists
__sub_dirs and __files in discovery order, and the stored __empty,
__recursive and __recursive_depth. -/
inductive Directory where
  | mk (base : Pathed) (sub_dirs : List Directory) (files : List File)
      (empty : Bool) (recursive : Bool) (recursive_depth : Int)

def Directory.base : Directory → Pathed
  | .mk b _ _ _ _ _ => b

def Directory.sub_dirs : Directory → List Directory
  | .mk _ s _ _ _ _ => s

def Directory.files : Directory → List File
  | .mk _ _ f _ _ _ => f

def Directory.empty : Directory → Bool
  | .mk _ _ _ e _ _ => e

def Directory.recursive : Directory → Bool
  | .mk _ _ _ _ r _ => r

def Directory.recursive_depth : Directory → Int
  | .mk _ _ _ _ _ d => d

mutual
/-- Directory.__init__(path, parent_dir, hash_files, recursive,
recursive_depth): validate with os.path.isdir (NotADirectoryError on
failure), call Pathed.__init__(path, os.path.isdir, NotADirectoryError,
parent_dir) -- the hash_files parameter is NOT forwarded, so the stored flag
is the default False -- then record recursive and recursive_depth and run
__populate on the listing. -/
def Directory.init (digest : List Nat → String) (path : List String)
    (e : FSEntry) (hash_files : Bool) (recursive : Bool)
    (recursive_depth : Int) : Except PathedError Directory :=
  match e with
  | .dir mtime entries =>
    let base := Pathed.init .directory path mtime false
    match Directory.populate digest path base.hash_files recursive
        recursive_depth entries with
    | .ok p =>
      .ok (.mk base p.1 p.2 entries.isEmpty recursive recursive_depth)
    | .error err => .error err
  | _ => .error (.notADirectory path)

/-- Directory.__populate: walk the os.listdir items in order.  A directory
item is recursed into only when self.__recursive_depth >= 0, with the child
receiving self._should_hash_files, self.__recursive and
self.__recursive_depth - 1; a directory item is dropped otherwise.  A file
item becomes a File(item_path, self).  Any other item raises the
EnvironmentError naming item_path, aborting the walk.  The should_hash
argument is the value of self._should_hash_files read inside the loop. -/
def Directory.populate (digest : List Nat → String) (path : List String)
    (should_hash : Bool) (recursive : Bool) (recursive_depth : Int) :
    List (String × FSEntry) → Except PathedError (List Directory × List File)
  | [] => .ok ([], [])
  | (item, entry) :: rest =>
    let item_path := path ++ [item]
    match entry with
    | .dir m es =>
      if 0 ≤ recursive_depth then
        match Directory.init digest item_path (.dir m es) should_hash
            recursive (recursive_depth - 1),
          Directory.populate digest path should_hash recursive
            recursive_depth rest with
        | .ok d, .ok p => .ok (d :: p.1, p.2)
        | .error e1, _ => .error e1
        | .ok _, .error e2 => .error e2
      else
        Directory.populate digest path should_hash recursive recursive_depth
          rest
    | .file m c =>
      match Directory.populate digest path should_hash recursive
          recursive_depth rest with
      | .ok p => .ok (p.1, File.init digest item_path m c :: p.2)
      | .error e2 => .error e2
    | .other => .error (.unknownEntry item_path)
end

mutual
/-- Directory.refresh: refresh self via the base method, then run
refreshed = refreshed or child.refresh() over __sub_dirs and then __files. -/
def Directory.refresh (digest : List Nat → String) (fs : LiveFS) :
    Directory → Directory × Bool
  | .mk base subs fls emp rcv dep =>
    let pr := Pathed.refresh (fs.mtime base.path) base
    let sr := Directory.refreshLoop digest fs pr.2 subs
    let fr := File.refreshLoop digest fs sr.2 fls
    (.mk pr.1 sr.1 fr.1 emp rcv dep, fr.2)

/-- The sub_dirs loop of Directory.refresh, with the same or short-circuit
as the files loop: a child is refreshed only while refreshed is false. -/
def Directory.refreshLoop (digest : List Nat → String) (fs : LiveFS) :
    Bool → List Directory → List Directory × Bool
  | r, [] => ([], r)
  | r, d :: rest =>
    if r then
      let p := Directory.refreshLoop digest fs r rest
      (d :: p.1, p.2)
    else
      let dr := Directory.refresh digest fs d
      let p := Directory.refreshLoop digest fs dr.2 rest
      (dr.1 :: p.1, p.2)
end

/-- A dummy digest used for concrete evaluations; the definitions never
inspect the digest beyond comparing its outputs for equality. -/
def dg0 : List Nat → String := fun _ => ""

mutual
/-- Erase the stored __recursive field (set it to false) at every node.
Two trees equal up to this erasure agree on everything the scan produced --
paths, names, timestamps, flags, sub_dirs, files, empty, depths -- and
differ at most in the stored copy of the recursive argument itself. -/
def Directory.eraseRec : Directory → Directory
  | .mk b subs fls e _ dep => .mk b (Directory.eraseRecList subs) fls e false dep

def Directory.eraseRecList : List Directory → List Directory
  | [] => []
  | d :: ds => Directory.eraseRec d :: Directory.eraseRecList ds
end

/-- The correct capability tags of a File object: is_file and not is_dir. -/
def File.tagsB (f : File) : Bool :=
  !f.base.is_dir && f.base.is_file

mutual
/-- Every node of a Directory tree carries the correct capability tags:
is_dir and not is_file on every Directory, is_file and not is_dir on every
File -- i.e. exactly one of the two tags is true at every node, with the
polarity of its variant. -/
def Directory.tagsOK : Directory → Bool
  | .mk b subs fls _ _ _ =>
    (b.is_dir && !b.is_file) && Directory.tagsOKList subs
      && fls.all File.tagsB

def Directory.tagsOKList : List Directory → Bool
  | [] => true
  | d :: ds => Directory.tagsOK d && Directory.tagsOKList ds
end

/-- A File object is in sync with the live filesystem exactly when its
refresh would report no change: the stored last_modified equals the live
modification time and, when hashing is enabled for it, the stored hash
equals the hash of the live contents. -/
def File.syncedB (digest : List Nat → String) (fs : LiveFS) (f : File) :
    Bool :=
  decide (f.base.last_modified = fs.mtime f.base.path)
    && (!f.base.hash_files
      || decide (f.hash = some (hash_file digest (fs.content f.base.path))))

/-- The number of Files in a list that are out of sync with the live
filesystem. -/
def File.unsyncedCountList (digest : List Nat → String) (fs : LiveFS) :
    List File → Nat
  | [] => 0
  | f :: rest =>
    (if File.syncedB digest fs f then 0 else 1)
      + File.unsyncedCountList digest fs rest

mutual
/-- The number of nodes of a Directory tree (the directory itself included)
whose stored state disagrees with the live filesystem: directory nodes by
modification time, file nodes by File.syncedB. -/
def Directory.unsyncedCount (digest : List Nat → String) (fs : LiveFS) :
    Directory → Nat
  | .mk b subs fls _ _ _ =>
    (if b.last_modified = fs.mtime b.path then 0 else 1)
      + Directory.unsyncedCountList digest fs subs
      + File.unsyncedCountList digest fs fls

def Directory.unsyncedCountList (digest : List Nat → String) (fs : LiveFS) :
    List Directory → Nat
  | [] => 0
  | d :: ds =>
    Directory.unsyncedCount digest fs d
      + Directory.unsyncedCountList digest fs ds
end

/-- A live filesystem for refresh scenarios in which every path currently has
modification time 1 and empty contents. -/
def fsAll1 : LiveFS := ⟨fun _ => 1, fun _ => []⟩

/-- A Directory object whose stored state (all modification times 0) is stale
against fsAll1: a root with no sub_dirs and a single File child. -/
def tC2 : Directory :=
  .mk ⟨["r"], "r", 0, true, false, false⟩ []
    [⟨⟨["r", "f"], "f", 0, false, true, false⟩, some 0, none⟩]
    false false 0

/-- A File object with stored modification time 0, stale against fsAll1. -/
def fileC3 : File := ⟨⟨["f"], "f", 0, false, true, false⟩, some 0, none⟩

/-- A Directory tree with exactly one node out of sync with fsAll1: the
stored modification time of the root is the live 1, that of the file child is a stale
0. -/
def tC3w : Directory :=
  .mk ⟨["r"], "r", 1, true, false, false⟩ []
    [⟨⟨["r", "f"], "f", 0, false, true, false⟩, some 0, none⟩]
    false false 0

/-- The Directory produced by scanning a root with one (empty) subdirectory
and one one-byte file at recursive_depth 0. -/
def tC6 : Directory :=
  .mk ⟨["r"], "r", 0, true, false, false⟩
    [.mk ⟨["r", "a"], "a", 0, true, false, false⟩ [] [] true false (-1)]
    [⟨⟨["r", "b.txt"], "b.txt", 0, false, true, false⟩, some 1, none⟩]
    false false 0

/-- Claim C1: with hash_files = true at the root, every descendant is
claimed to carry hash_files = true and every File is claimed to cache its
hash at construction.  The code refutes this: Directory.__init__ does not
forward its hash_files argument to Pathed.__init__ (the base stores the
default False), and File is constructed without any hash_files argument at
all.  Constructing the root of a one-file tree with hash_files = true
therefore yields hash_files = false on the root and on the file, and the
hash attribute of the file is never assigned (none). -/
theorem C1_hash_files_not_propagated :
    Directory.init dg0 ["root"] (.dir 0 [("a.txt", .file 0 [104, 105])])
      true true 0
      = .ok (.mk ⟨["root"], "root", 0, true, false, false⟩ []
          [⟨⟨["root", "a.txt"], "a.txt", 0, false, true, false⟩, some 2, none⟩]
          false true 0) := rfl

/-- Claim C2: Directory.refresh is claimed to call refresh() on every child
unconditionally.  The code refutes this: refreshed = refreshed or
child.refresh() short-circuits, so once a change has been found the
remaining children are skipped.  Concretely, with every live modification
time 1 and all stored times 0, the first refresh reports true but leaves
the stored time of the file child at 0 (its refresh was never called), and a
second refresh with the unchanged filesystem reports true again. -/
theorem C2_refresh_skips_children :
    (Directory.refresh dg0 fsAll1 tC2).2 = true
    ∧ (Directory.refresh dg0 fsAll1 tC2).1.files.map
        (fun f => f.base.last_modified) = [0]
    ∧ (Directory.refresh dg0 fsAll1 (Directory.refresh dg0 fsAll1 tC2).1).2
        = true := by
  decide

/-- Claim C3 as stated says that whenever the filesystem is unchanged
between two consecutive refresh() calls, both calls return false.  A single
File whose stored modification time (0) differs from the live one (1)
refutes it: the filesystem (fsAll1) is the same for both calls, yet the
first call returns true (the change was pending from before the first
call), and only the second returns false. -/
theorem C3_counterexample :
    (File.refresh dg0 fsAll1 fileC3).2 = true
    ∧ (File.refresh dg0 fsAll1 (File.refresh dg0 fsAll1 fileC3).1).2
        = false := by
  decide

/-- Claim C4: with hash_files disabled, every access to the hash property is
claimed to recompute and return the hash of the current contents.  The code
refutes this: __calculate_hash_and_size assigns __hash only when
_should_hash_files is true, so with hashing disabled __hash is never
assigned and the property read fails (none models the AttributeError).
Concretely, a File built over contents [104, 105] read with live contents
[98] yields no hash at all rather than the digest of [98]. -/
theorem C4_hash_access_fails :
    (File.init dg0 ["a.txt"] 0 [104, 105]).base.hash_files = false
    ∧ (File.hash_access dg0 [98] (File.init dg0 ["a.txt"] 0 [104, 105])).2
        = none := by
  decide

/-- Claim C5: recursive_depth = 0 is claimed (as in the source docstring) to
recurse without bound.  The code refutes this: the root checks 0 >= 0 and
recurses passing -1, and the check -1 >= 0 in the child fails, so every
subdirectory entry of a child is dropped.  Over a chain r/a/b/c of nested
directories, construction with recursive_depth = 0 yields child a with no
sub_dirs at all: recursion stops after exactly one level. -/
theorem C5_depth_zero_is_bounded :
    Directory.init dg0 ["r"]
      (.dir 0 [("a", .dir 0 [("b", .dir 0 [("c", .dir 0 [])])])])
      false false 0
      = .ok (.mk ⟨["r"], "r", 0, true, false, false⟩
          [.mk ⟨["r", "a"], "a", 0, true, false, false⟩ [] [] false false (-1)]
          [] false false 0) := rfl

/-- Claim C7: the hashing function returns the hex digest of the raw bytes
for non-empty contents (so identical content gives identical hash), and the
designated empty value, distinct from any digest, for empty contents. -/
theorem C7_hash_file_spec (digest : List Nat → String) (c : List Nat) :
    (0 < c.length → hash_file digest c = .hexdigest (digest c))
    ∧ (∀ c2 : List Nat, c = c2 → hash_file digest c = hash_file digest c2)
    ∧ (c.length = 0 → hash_file digest c = .emptyBytes
        ∧ ∀ s : String, hash_file digest c ≠ .hexdigest s) := by
  refine ⟨fun h => ?_, fun c2 hc => by rw [hc], fun h => ?_⟩
  · simp [hash_file, h]
  · constructor
    · simp [hash_file, h]
    · intro s hs
      simp [hash_file, h] at hs

mutual
theorem init_erase_indep (digest : List Nat → String) (r1 r2 : Bool) :
    (e : FSEntry) → ∀ (path : List String) (hf : Bool) (dep : Int),
      (Directory.init digest path e hf r1 dep).map Directory.eraseRec
        = (Directory.init digest path e hf r2 dep).map Directory.eraseRec
  | .file _ _ => fun path hf dep => by simp [Directory.init]
  | .other => fun path hf dep => by simp [Directory.init]
  | .dir m entries => fun path hf dep => by
    have h := populate_erase_indep digest r1 r2 entries path
      (Pathed.init .directory path m false).hash_files dep
    simp only [Directory.init]
    cases h1 : Directory.populate digest path
        (Pathed.init .directory path m false).hash_files r1 dep entries with
    | ok p1 =>
      cases h2 : Directory.populate digest path
          (Pathed.init .directory path m false).hash_files r2 dep entries with
      | ok p2 =>
        rw [h1, h2] at h
        simp only [Except.map, Except.ok.injEq, Prod.mk.injEq] at h
        obtain ⟨hsub, hfl⟩ := h
        simp [Except.map, Directory.eraseRec, hsub, hfl]
      | error e2 =>
        rw [h1, h2] at h
        simp [Except.map] at h
    | error e1 =>
      cases h2 : Directory.populate digest path
          (Pathed.init .directory path m false).hash_files r2 dep entries with
      | ok p2 =>
        rw [h1, h2] at h
        simp [Except.map] at h
      | error e2 =>
        rw [h1, h2] at h
        simp only [Except.map, Except.error.injEq] at h
        simp [Except.map, h]

theorem populate_erase_indep (digest : List Nat → String) (r1 r2 : Bool) :
    (l : List (String × FSEntry)) →
      ∀ (path : List String) (sh : Bool) (dep : Int),
      (Directory.populate digest path sh r1 dep l).map
          (fun p => (Directory.eraseRecList p.1, p.2))
        = (Directory.populate digest path sh r2 dep l).map
          (fun p => (Directory.eraseRecList p.1, p.2))
  | [] => fun path sh dep => by simp [Directory.populate]
  | (item, .dir m es) :: rest => fun path sh dep => by
    have h1 := init_erase_indep digest r1 r2 (.dir m es) (path ++ [item]) sh
      (dep - 1)
    have h2 := populate_erase_indep digest r1 r2 rest path sh dep
    simp only [Directory.populate]
    by_cases hdep : (0 : Int) ≤ dep
    · simp only [if_pos hdep]
      cases hi1 : Directory.init digest (path ++ [item]) (.dir m es) sh r1
          (dep - 1) with
      | ok d1 =>
        cases hi2 : Directory.init digest (path ++ [item]) (.dir m es) sh r2
            (dep - 1) with
        | ok d2 =>
          rw [hi1, hi2] at h1
          simp only [Except.map, Except.ok.injEq] at h1
          cases hp1 : Directory.populate digest path sh r1 dep rest with
          | ok p1 =>
            cases hp2 : Directory.populate digest path sh r2 dep rest with
            | ok p2 =>
              rw [hp1, hp2] at h2
              simp only [Except.map, Except.ok.injEq, Prod.mk.injEq] at h2
              obtain ⟨hsub, hfl⟩ := h2
              simp [Except.map, Directory.eraseRecList, h1, hsub, hfl]
            | error e2 =>
              rw [hp1, hp2] at h2
              simp [Except.map] at h2
          | error e1 =>
            cases hp2 : Directory.populate digest path sh r2 dep rest with
            | ok p2 =>
              rw [hp1, hp2] at h2
              simp [Except.map] at h2
            | error e2 =>
              rw [hp1, hp2] at h2
              simp only [Except.map, Except.error.injEq] at h2
              simp [Except.map, h2]
        | error e2 =>
          rw [hi1, hi2] at h1
          simp [Except.map] at h1
      | error e1 =>
        cases hi2 : Directory.init digest (path ++ [item]) (.dir m es) sh r2
            (dep - 1) with
        | ok d2 =>
          rw [hi1, hi2] at h1
          simp [Except.map] at h1
        | error e2 =>
          rw [hi1, hi2] at h1
          simp only [Except.map, Except.error.injEq] at h1
          simp [Except.map, h1]
    · simp only [if_neg hdep]
      exact h2
  | (item, .file m c) :: rest => fun path sh dep => by
    have h2 := populate_erase_indep digest r1 r2 rest path sh dep
    simp only [Directory.populate]
    cases hp1 : Directory.populate digest path sh r1 dep rest with
    | ok p1 =>
      cases hp2 : Directory.populate digest path sh r2 dep rest with
      | ok p2 =>
        rw [hp1, hp2] at h2
        simp only [Except.map, Except.ok.injEq, Prod.mk.injEq] at h2
        obtain ⟨hsub, hfl⟩ := h2
        simp [Except.map, hsub, hfl]
      | error e2 =>
        rw [hp1, hp2] at h2
        simp [Except.map] at h2
    | error e1 =>
      cases hp2 : Directory.populate digest path sh r2 dep rest with
      | ok p2 =>
        rw [hp1, hp2] at h2
        simp [Except.map] at h2
      | error e2 =>
        rw [hp1, hp2] at h2
        simp only [Except.map, Except.error.injEq] at h2
        simp [Except.map, h2]
  | (item, .other) :: rest => fun path sh dep => by
    simp [Directory.populate, Except.map]
end

/-- Claim C9: constructing a Directory with recursive = true and with
recursive = false yields the same tree up to the stored copy of the flag
itself: the flag is recorded and forwarded but never consulted, descent
being decided solely by the recursive_depth budget. -/
theorem C9_recursive_flag_unused (digest : List Nat → String)
    (path : List String) (e : FSEntry) (hf r1 r2 : Bool) (dep : Int) :
    (Directory.init digest path e hf r1 dep).map Directory.eraseRec
      = (Directory.init digest path e hf r2 dep).map Directory.eraseRec :=
  init_erase_indep digest r1 r2 e path hf dep

theorem C7_hash_file_spec_witness :
    hash_file dg0 [104] = .hexdigest (dg0 [104])
    ∧ hash_file dg0 [] = .emptyBytes :=
  ⟨(C7_hash_file_spec dg0 [104]).1 (by decide),
    ((C7_hash_file_spec dg0 []).2.2 (by decide)).1⟩

theorem Pathed.refresh_fields (m : Int) (p : Pathed) :
    (Pathed.refresh m p).1.path = p.path
    ∧ (Pathed.refresh m p).1.is_dir = p.is_dir
    ∧ (Pathed.refresh m p).1.is_file = p.is_file
    ∧ (Pathed.refresh m p).1.hash_files = p.hash_files := by
  unfold Pathed.refresh
  split <;> simp

theorem File.refresh_tagsB (digest : List Nat → String) (fs : LiveFS)
    (f : File) : File.tagsB (File.refresh digest fs f).1 = File.tagsB f := by
  obtain ⟨_, h1, h2, h3⟩ := Pathed.refresh_fields (fs.mtime f.base.path) f.base
  cases hb : f.base.hash_files with
  | false => simp [File.refresh, File.tagsB, h1, h2, h3, hb]
  | true =>
    simp [File.refresh, File.calculate_hash_and_size, File.tagsB, h1, h2, h3,
      hb]

theorem File.init_tagsB (digest : List Nat → String) (path : List String)
    (m : Int) (c : List Nat) : File.tagsB (File.init digest path m c) = true := by
  simp [File.tagsB, File.init, File.calculate_hash_and_size, Pathed.init]

theorem fileLoop_tags (digest : List Nat → String) (fs : LiveFS) :
    (r : Bool) → (fl : List File) →
      (File.refreshLoop digest fs r fl).1.all File.tagsB = fl.all File.tagsB
  | _, [] => by simp [File.refreshLoop]
  | r, f :: rest => by
    by_cases hr : r = true
    · subst hr
      have ih := fileLoop_tags digest fs true rest
      simp [File.refreshLoop, ih]
    · replace hr : r = false := by revert hr; cases r <;> simp
      subst hr
      have ih := fileLoop_tags digest fs (File.refresh digest fs f).2 rest
      have hf := File.refresh_tagsB digest fs f
      simp [File.refreshLoop, ih, hf]

mutual
theorem refresh_tagsOK (digest : List Nat → String) (fs : LiveFS) :
    (t : Directory) →
      Directory.tagsOK (Directory.refresh digest fs t).1 = Directory.tagsOK t
  | .mk b subs fls e rcv dep => by
    have hb := Pathed.refresh_fields (fs.mtime b.path) b
    have hs := refreshLoop_tagsOK digest fs
      (Pathed.refresh (fs.mtime b.path) b).2 subs
    have hf := fileLoop_tags digest fs
      (Directory.refreshLoop digest fs (Pathed.refresh (fs.mtime b.path) b).2
        subs).2 fls
    obtain ⟨_, h1, h2, _⟩ := hb
    simp [Directory.refresh, Directory.tagsOK, hs, hf, h1, h2]

theorem refreshLoop_tagsOK (digest : List Nat → String) (fs : LiveFS) :
    (r : Bool) → (ds : List Directory) →
      Directory.tagsOKList (Directory.refreshLoop digest fs r ds).1
        = Directory.tagsOKList ds
  | _, [] => by simp [Directory.refreshLoop]
  | r, d :: rest => by
    by_cases hr : r = true
    · subst hr
      have ih := refreshLoop_tagsOK digest fs true rest
      simp [Directory.refreshLoop, Directory.tagsOKList, ih]
    · replace hr : r = false := by revert hr; cases r <;> simp
      subst hr
      have ih := refreshLoop_tagsOK digest fs
        (Directory.refresh digest fs d).2 rest
      have hd := refresh_tagsOK digest fs d
      simp [Directory.refreshLoop, Directory.tagsOKList, ih, hd]
end

mutual
theorem init_tagsOK (digest : List Nat → String) :
    (e : FSEntry) → ∀ (path : List String) (hf rcv : Bool) (dep : Int)
      (t : Directory), Directory.init digest path e hf rcv dep = .ok t →
      Directory.tagsOK t = true
  | .file _ _ => fun path hf rcv dep t h => by simp [Directory.init] at h
  | .other => fun path hf rcv dep t h => by simp [Directory.init] at h
  | .dir m entries => fun path hf rcv dep t h => by
    simp only [Directory.init] at h
    cases hp : Directory.populate digest path
        (Pathed.init .directory path m false).hash_files rcv dep entries with
    | ok p =>
      have hpt := populate_tagsOK digest entries path
        (Pathed.init .directory path m false).hash_files rcv dep p hp
      rw [hp] at h
      simp only [Except.ok.injEq] at h
      subst h
      simp [Directory.tagsOK, Pathed.init, hpt.1, hpt.2]
    | error err =>
      rw [hp] at h
      simp at h

theorem populate_tagsOK (digest : List Nat → String) :
    (l : List (String × FSEntry)) →
      ∀ (path : List String) (sh rcv : Bool) (dep : Int)
        (p : List Directory × List File),
      Directory.populate digest path sh rcv dep l = .ok p →
      Directory.tagsOKList p.1 = true ∧ p.2.all File.tagsB = true
  | [] => fun path sh rcv dep p h => by
    simp only [Directory.populate, Except.ok.injEq] at h
    subst h
    simp [Directory.tagsOKList]
  | (item, .dir m es) :: rest => fun path sh rcv dep p h => by
    simp only [Directory.populate] at h
    by_cases hdep : (0 : Int) ≤ dep
    · rw [if_pos hdep] at h
      cases hi : Directory.init digest (path ++ [item]) (.dir m es) sh rcv
          (dep - 1) with
      | ok d =>
        cases hp : Directory.populate digest path sh rcv dep rest with
        | ok q =>
          have hd := init_tagsOK digest (.dir m es) (path ++ [item]) sh rcv
            (dep - 1) d hi
          have hq := populate_tagsOK digest rest path sh rcv dep q hp
          rw [hi, hp] at h
          simp only [Except.ok.injEq] at h
          subst h
          simp [Directory.tagsOKList, hd, hq.1, hq.2]
        | error e2 =>
          rw [hi, hp] at h
          simp at h
      | error e1 =>
        rw [hi] at h
        simp at h
    · rw [if_neg hdep] at h
      exact populate_tagsOK digest rest path sh rcv dep p h
  | (item, .file m c) :: rest => fun path sh rcv dep p h => by
    simp only [Directory.populate] at h
    cases hp : Directory.populate digest path sh rcv dep rest with
    | ok q =>
      have hq := populate_tagsOK digest rest path sh rcv dep q hp
      rw [hp] at h
      simp only [Except.ok.injEq] at h
      subst h
      simp [hq.1, hq.2, File.init_tagsB]
    | error e2 =>
      rw [hp] at h
      simp at h
  | (item, .other) :: rest => fun path sh rcv dep p h => by
    simp [Directory.populate] at h
end

/-- Claim C10: every constructed tree carries correct capability tags --
is_dir true and is_file false on every Directory node, is_file true and
is_dir false on every File node, so exactly one of the two is true at every
node -- and the tags still hold (refresh leaves them unchanged) after a
refresh() call against any live filesystem. -/
theorem C10_capability_tags (digest : List Nat → String) (fs : LiveFS)
    (path : List String) (e : FSEntry) (hf rcv : Bool) (dep : Int)
    (t : Directory) (h : Directory.init digest path e hf rcv dep = .ok t) :
    Directory.tagsOK t = true
    ∧ Directory.tagsOK (Directory.refresh digest fs t).1 = true := by
  have h1 := init_tagsOK digest e path hf rcv dep t h
  have h2 := refresh_tagsOK digest fs t
  exact ⟨h1, h2.trans h1⟩

theorem C10_capability_tags_witness :
    Directory.tagsOK
        (.mk ⟨["r"], "r", 0, true, false, false⟩ []
          [⟨⟨["r", "f"], "f", 0, false, true, false⟩, some 0, none⟩]
          false false 0) = true
    ∧ Directory.tagsOK
        (Directory.refresh dg0 fsAll1
          (.mk ⟨["r"], "r", 0, true, false, false⟩ []
            [⟨⟨["r", "f"], "f", 0, false, true, false⟩, some 0, none⟩]
            false false 0)).1 = true :=
  C10_capability_tags dg0 fsAll1 ["r"]
    (.dir 0 [("f", .file 0 [])]) false false 0
    (.mk ⟨["r"], "r", 0, true, false, false⟩ []
      [⟨⟨["r", "f"], "f", 0, false, true, false⟩, some 0, none⟩]
      false false 0) rfl

theorem populate_counts (digest : List Nat → String) :
    (l : List (String × FSEntry)) →
      ∀ (path : List String) (sh rcv : Bool) (dep : Int)
        (p : List Directory × List File),
      0 ≤ dep → Directory.populate digest path sh rcv dep l = .ok p →
      p.1.length = (l.countP fun q => FSEntry.isDirB q.2)
      ∧ p.2.length = (l.countP fun q => FSEntry.isFileB q.2)
      ∧ (l.countP fun q => FSEntry.isDirB q.2)
          + (l.countP fun q => FSEntry.isFileB q.2) = l.length
  | [] => fun path sh rcv dep p _ h => by
    simp only [Directory.populate, Except.ok.injEq] at h
    subst h
    simp
  | (item, .dir m es) :: rest => fun path sh rcv dep p hdep h => by
    simp only [Directory.populate, if_pos hdep] at h
    cases hi : Directory.init digest (path ++ [item]) (.dir m es) sh rcv
        (dep - 1) with
    | ok d =>
      cases hp : Directory.populate digest path sh rcv dep rest with
      | ok q =>
        have ih := populate_counts digest rest path sh rcv dep q hdep hp
        rw [hi, hp] at h
        simp only [Except.ok.injEq] at h
        subst h
        simp only [List.countP_cons, FSEntry.isDirB, FSEntry.isFileB,
          List.length_cons, List.length] at ih ⊢
        simp at ih ⊢ <;> omega
      | error e2 =>
        rw [hi, hp] at h
        simp at h
    | error e1 =>
      rw [hi] at h
      simp at h
  | (item, .file m c) :: rest => fun path sh rcv dep p hdep h => by
    simp only [Directory.populate] at h
    cases hp : Directory.populate digest path sh rcv dep rest with
    | ok q =>
      have ih := populate_counts digest rest path sh rcv dep q hdep hp
      rw [hp] at h
      simp only [Except.ok.injEq] at h
      subst h
      simp only [List.countP_cons, FSEntry.isDirB, FSEntry.isFileB,
        List.length_cons, List.length] at ih ⊢
      simp at ih ⊢ <;> omega
    | error e2 =>
      rw [hp] at h
      simp at h
  | (item, .other) :: rest => fun path sh rcv dep p hdep h => by
    simp [Directory.populate] at h

/-- Claim C6 as stated is refuted by the code: a Directory constructed with
a negative recursive_depth (legal, since the parameter is a plain int, and
exactly what every child scanned from a root with recursive_depth 0
receives) drops every subdirectory entry, so sub_dirs and files together
can be shorter than the listing.  Here a listing of one subdirectory
produces combined length 0, not 1. -/
theorem C6_counterexample :
    (Directory.init dg0 ["r"] (.dir 0 [("s", .dir 0 [])]) false false
        (-1)).map (fun t => t.sub_dirs.length + t.files.length)
      ≠ .ok ([("s", FSEntry.dir 0 [])].length) := by
  intro h
  rw [show Directory.init dg0 ["r"] (.dir 0 [("s", .dir 0 [])]) false false
      (-1) = .ok (.mk ⟨["r"], "r", 0, true, false, false⟩ [] [] false false
      (-1)) from rfl] at h
  simp [Except.map, Directory.sub_dirs, Directory.files] at h

/-- Claim C6 (amended): for every Directory scanned with a non-negative
depth budget -- in particular any root constructed with the default
recursive_depth = 0 or larger -- sub_dirs and files partition the listing by
kind: their lengths are the number of directory entries and of regular-file
entries respectively, their sum is the listing length, and empty is true
iff the listing had zero entries.  (With a negative budget, subdirectory
entries are dropped and only the file count survives.) -/
theorem C6_partition_counts (digest : List Nat → String) (path : List String)
    (mtime : Int) (entries : List (String × FSEntry)) (hf rcv : Bool)
    (dep : Int) (t : Directory) (hdep : 0 ≤ dep)
    (h : Directory.init digest path (.dir mtime entries) hf rcv dep = .ok t) :
    t.sub_dirs.length = (entries.countP fun q => FSEntry.isDirB q.2)
    ∧ t.files.length = (entries.countP fun q => FSEntry.isFileB q.2)
    ∧ t.sub_dirs.length + t.files.length = entries.length
    ∧ (t.empty = true ↔ entries = []) := by
  simp only [Directory.init] at h
  cases hp : Directory.populate digest path
      (Pathed.init .directory path mtime false).hash_files rcv dep
      entries with
  | ok p =>
    have hc := populate_counts digest entries path
      (Pathed.init .directory path mtime false).hash_files rcv dep p hdep hp
    rw [hp] at h
    simp only [Except.ok.injEq] at h
    subst h
    simp only [Directory.sub_dirs, Directory.files, Directory.empty]
    refine ⟨hc.1, hc.2.1, ?_, ?_⟩
    · rw [hc.1, hc.2.1]
      exact hc.2.2
    · exact List.isEmpty_iff
  | error err =>
    rw [hp] at h
    simp at h

theorem C6_partition_counts_witness :
    tC6.sub_dirs.length
        = ([("a", FSEntry.dir 0 []), ("b.txt", FSEntry.file 0 [1])].countP
            fun q => FSEntry.isDirB q.2)
    ∧ tC6.files.length
        = ([("a", FSEntry.dir 0 []), ("b.txt", FSEntry.file 0 [1])].countP
            fun q => FSEntry.isFileB q.2)
    ∧ tC6.sub_dirs.length + tC6.files.length
        = [("a", FSEntry.dir 0 []), ("b.txt", FSEntry.file 0 [1])].length
    ∧ (tC6.empty = true
        ↔ [("a", FSEntry.dir 0 []), ("b.txt", FSEntry.file 0 [1])]
            = ([] : List (String × FSEntry))) :=
  C6_partition_counts dg0 ["r"] 0
    [("a", FSEntry.dir 0 []), ("b.txt", FSEntry.file 0 [1])] false false 0
    tC6 (by decide) rfl

theorem populate_append_error (digest : List Nat → String) :
    (pre : List (String × FSEntry)) →
      ∀ (path : List String) (sh rcv : Bool) (dep : Int) (item : String)
        (post : List (String × FSEntry)) (q : List Directory × List File),
      Directory.populate digest path sh rcv dep pre = .ok q →
      Directory.populate digest path sh rcv dep
          (pre ++ (item, .other) :: post)
        = .error (.unknownEntry (path ++ [item]))
  | [] => fun path sh rcv dep item post q _ => by
    simp [Directory.populate]
  | (n, .dir m es) :: pre => fun path sh rcv dep item post q h => by
    simp only [Directory.populate] at h
    simp only [List.cons_append, Directory.populate]
    by_cases hdep : (0 : Int) ≤ dep
    · rw [if_pos hdep] at h ⊢
      cases hi : Directory.init digest (path ++ [n]) (.dir m es) sh rcv
          (dep - 1) with
      | ok d =>
        cases hp : Directory.populate digest path sh rcv dep pre with
        | ok q2 =>
          have ih := populate_append_error digest pre path sh rcv dep item
            post q2 hp
          simp [ih]
        | error e2 =>
          rw [hi, hp] at h
          simp at h
      | error e1 =>
        rw [hi] at h
        simp at h
    · rw [if_neg hdep] at h ⊢
      exact populate_append_error digest pre path sh rcv dep item post q h
  | (n, .file m c) :: pre => fun path sh rcv dep item post q h => by
    simp only [Directory.populate] at h
    simp only [List.cons_append, Directory.populate]
    cases hp : Directory.populate digest path sh rcv dep pre with
    | ok q2 =>
      have ih := populate_append_error digest pre path sh rcv dep item
        post q2 hp
      simp [ih]
    | error e2 =>
      rw [hp] at h
      simp at h
  | (n, .other) :: pre => fun path sh rcv dep item post q h => by
    simp [Directory.populate] at h

/-- Claim C8: when the listing reaches an entry that is neither a directory
nor a regular file (all entries before it having been processed
successfully, stated with the flag value false that the stored
_should_hash_files always has), construction fails with the unknown-entry
error naming exactly the offending path, and the result does not depend on
the entries after the offending one (post is universally quantified and
unconstrained): the scan aborts at that point. -/
theorem C8_unknown_entry_aborts (digest : List Nat → String)
    (path : List String) (mtime : Int) (hf rcv : Bool) (dep : Int)
    (pre : List (String × FSEntry)) (item : String)
    (post : List (String × FSEntry)) (q : List Directory × List File)
    (hpre : Directory.populate digest path false rcv dep pre = .ok q) :
    Directory.init digest path (.dir mtime (pre ++ (item, .other) :: post))
      hf rcv dep = .error (.unknownEntry (path ++ [item])) := by
  have hall := populate_append_error digest pre path false rcv dep item post
    q hpre
  simp only [Directory.init]
  rw [show (Pathed.init .directory path mtime false).hash_files = false
    from rfl]
  rw [hall]

theorem C8_unknown_entry_aborts_witness :
    Directory.init dg0 ["r"]
        (.dir 0 ([("f.txt", .file 0 [])]
          ++ ("weird", FSEntry.other) :: [("g.txt", .file 0 [])]))
        false false 0
      = .error (.unknownEntry (["r"] ++ ["weird"])) :=
  C8_unknown_entry_aborts dg0 ["r"] 0 false false 0
    [("f.txt", FSEntry.file 0 [])] "weird" [("g.txt", FSEntry.file 0 [])]
    ([], [File.init dg0 ["r", "f.txt"] 0 []]) rfl

theorem Pathed.refresh_spec (m : Int) (p : Pathed) :
    (Pathed.refresh m p).1.last_modified = m
    ∧ (Pathed.refresh m p).1.path = p.path
    ∧ (Pathed.refresh m p).2 = !decide (p.last_modified = m) := by
  unfold Pathed.refresh
  by_cases h : p.last_modified = m
  · simp [h]
  · simp [h]

theorem File.refresh_flag (digest : List Nat → String) (fs : LiveFS)
    (f : File) :
    (File.refresh digest fs f).2 = !File.syncedB digest fs f := by
  cases hb : f.base.hash_files with
  | false =>
    by_cases hm : f.base.last_modified = fs.mtime f.base.path <;>
      simp [File.refresh, File.syncedB, Pathed.refresh, hb, hm]
  | true =>
    by_cases hm : f.base.last_modified = fs.mtime f.base.path <;>
      by_cases hh : f.hash
          = some (hash_file digest (fs.content f.base.path)) <;>
        simp [File.refresh, File.syncedB, File.calculate_hash_and_size,
          Pathed.refresh, hb, hm, hh]

theorem File.refresh_synced (digest : List Nat → String) (fs : LiveFS)
    (f : File) :
    File.syncedB digest fs (File.refresh digest fs f).1 = true := by
  cases hb : f.base.hash_files with
  | false =>
    by_cases hm : f.base.last_modified = fs.mtime f.base.path <;>
      simp [File.refresh, File.syncedB, Pathed.refresh, hb, hm]
  | true =>
    by_cases hm : f.base.last_modified = fs.mtime f.base.path <;>
      by_cases hh : f.hash
          = some (hash_file digest (fs.content f.base.path)) <;>
        simp [File.refresh, File.syncedB, File.calculate_hash_and_size,
          Pathed.refresh, hb, hm, hh]

theorem fileLoop_all_skip (digest : List Nat → String) (fs : LiveFS) :
    (l : List File) → File.refreshLoop digest fs true l = (l, true)
  | [] => by simp [File.refreshLoop]
  | f :: rest => by
    have ih := fileLoop_all_skip digest fs rest
    simp [File.refreshLoop, ih]

theorem dirLoop_all_skip (digest : List Nat → String)
    (fs : LiveFS) :
    (ds : List Directory) →
      Directory.refreshLoop digest fs true ds = (ds, true)
  | [] => by simp [Directory.refreshLoop]
  | d :: rest => by
    have ih := dirLoop_all_skip digest fs rest
    simp [Directory.refreshLoop, ih]

theorem fileLoop_cons_active (digest : List Nat → String)
    (fs : LiveFS) (f : File) (rest : List File) :
    File.refreshLoop digest fs false (f :: rest)
      = ((File.refresh digest fs f).1 ::
          (File.refreshLoop digest fs (File.refresh digest fs f).2 rest).1,
        (File.refreshLoop digest fs (File.refresh digest fs f).2 rest).2) :=
  rfl

theorem dirLoop_cons_active (digest : List Nat → String)
    (fs : LiveFS) (d : Directory) (rest : List Directory) :
    Directory.refreshLoop digest fs false (d :: rest)
      = ((Directory.refresh digest fs d).1 ::
          (Directory.refreshLoop digest fs (Directory.refresh digest fs d).2
            rest).1,
        (Directory.refreshLoop digest fs (Directory.refresh digest fs d).2
          rest).2) :=
  rfl

theorem fileLoop_spec (digest : List Nat → String) (fs : LiveFS) :
    (l : List File) → File.unsyncedCountList digest fs l ≤ 1 →
      ((File.refreshLoop digest fs false l).2 = true
        ↔ File.unsyncedCountList digest fs l = 1)
      ∧ File.unsyncedCountList digest fs
          (File.refreshLoop digest fs false l).1 = 0
  | [] => fun _ => by
    simp [File.refreshLoop, File.unsyncedCountList]
  | f :: rest => fun h => by
    have hflag := File.refresh_flag digest fs f
    have hsync := File.refresh_synced digest fs f
    rw [fileLoop_cons_active]
    by_cases hf : File.syncedB digest fs f = true
    · rw [hf] at hflag
      simp only [Bool.not_true] at hflag
      have hrest : File.unsyncedCountList digest fs rest ≤ 1 := by
        simp [File.unsyncedCountList, hf] at h
        omega
      have ih := fileLoop_spec digest fs rest hrest
      rw [hflag]
      constructor
      · rw [ih.1]
        simp [File.unsyncedCountList, hf]
      · simp [File.unsyncedCountList, hsync, ih.2]
    · have hf1 : File.syncedB digest fs f = false := by
        revert hf
        cases File.syncedB digest fs f <;> simp
      rw [hf1] at hflag
      simp only [Bool.not_false] at hflag
      have hrest : File.unsyncedCountList digest fs rest = 0 := by
        simp [File.unsyncedCountList, hf1] at h
        omega
      rw [hflag, fileLoop_all_skip digest fs rest]
      constructor
      · simp [File.unsyncedCountList, hf1, hrest]
      · simp [File.unsyncedCountList, hsync, hrest]

theorem Directory.refresh_mk (digest : List Nat → String) (fs : LiveFS)
    (b : Pathed) (subs : List Directory) (fls : List File) (e rcv : Bool)
    (dep : Int) :
    Directory.refresh digest fs (.mk b subs fls e rcv dep)
      = (.mk (Pathed.refresh (fs.mtime b.path) b).1
          (Directory.refreshLoop digest fs
            (Pathed.refresh (fs.mtime b.path) b).2 subs).1
          (File.refreshLoop digest fs
            (Directory.refreshLoop digest fs
              (Pathed.refresh (fs.mtime b.path) b).2 subs).2 fls).1
          e rcv dep,
        (File.refreshLoop digest fs
          (Directory.refreshLoop digest fs
            (Pathed.refresh (fs.mtime b.path) b).2 subs).2 fls).2) :=
  rfl

theorem Directory.unsyncedCount_mk (digest : List Nat → String) (fs : LiveFS)
    (b : Pathed) (subs : List Directory) (fls : List File) (e rcv : Bool)
    (dep : Int) :
    Directory.unsyncedCount digest fs (.mk b subs fls e rcv dep)
      = (if b.last_modified = fs.mtime b.path then 0 else 1)
        + Directory.unsyncedCountList digest fs subs
        + File.unsyncedCountList digest fs fls :=
  rfl

theorem Directory.unsyncedCountList_cons (digest : List Nat → String)
    (fs : LiveFS) (d : Directory) (ds : List Directory) :
    Directory.unsyncedCountList digest fs (d :: ds)
      = Directory.unsyncedCount digest fs d
        + Directory.unsyncedCountList digest fs ds :=
  rfl

mutual
theorem dir_refresh_spec (digest : List Nat → String) (fs : LiveFS) :
    (t : Directory) → Directory.unsyncedCount digest fs t ≤ 1 →
      ((Directory.refresh digest fs t).2 = true
        ↔ Directory.unsyncedCount digest fs t = 1)
      ∧ Directory.unsyncedCount digest fs (Directory.refresh digest fs t).1
          = 0
  | .mk b subs fls e rcv dep => fun h => by
    have hb := Pathed.refresh_spec (fs.mtime b.path) b
    rw [Directory.unsyncedCount_mk] at h
    simp only [Directory.refresh_mk, Directory.unsyncedCount_mk]
    by_cases hm : b.last_modified = fs.mtime b.path
    · have hpr2 : (Pathed.refresh (fs.mtime b.path) b).2 = false := by
        rw [hb.2.2]
        simp [hm]
      rw [if_pos hm] at h
      have hbsync : (if (Pathed.refresh (fs.mtime b.path) b).1.last_modified
          = fs.mtime (Pathed.refresh (fs.mtime b.path) b).1.path then 0
          else 1) = 0 := by
        rw [hb.1, hb.2.1]
        simp
      have hsubs : Directory.unsyncedCountList digest fs subs ≤ 1 := by
        omega
      have ihs := dirLoop_spec digest fs subs hsubs
      rw [hpr2]
      by_cases hs2 : (Directory.refreshLoop digest fs false subs).2 = true
      · have hcs : Directory.unsyncedCountList digest fs subs = 1 :=
          ihs.1.mp hs2
        have hcf : File.unsyncedCountList digest fs fls = 0 := by
          omega
        rw [hs2, fileLoop_all_skip digest fs fls]
        constructor
        · simp only [if_pos hm]
          constructor
          · intro _
            omega
          · intro _
            trivial
        · rw [hbsync, ihs.2, hcf]
      · have hs2f : (Directory.refreshLoop digest fs false subs).2 = false := by
          revert hs2
          cases (Directory.refreshLoop digest fs false subs).2 <;> simp
        have hcs0 : Directory.unsyncedCountList digest fs subs = 0 := by
          have hne : ¬ Directory.unsyncedCountList digest fs subs = 1 := by
            intro h1
            exact hs2 (ihs.1.mpr h1)
          omega
        have hcf1 : File.unsyncedCountList digest fs fls ≤ 1 := by
          omega
        have ihf := fileLoop_spec digest fs fls hcf1
        rw [hs2f]
        constructor
        · rw [ihf.1]
          simp only [if_pos hm]
          omega
        · rw [hbsync, ihs.2, ihf.2]
    · have hpr2 : (Pathed.refresh (fs.mtime b.path) b).2 = true := by
        rw [hb.2.2]
        simp [hm]
      rw [if_neg hm] at h
      have hbsync : (if (Pathed.refresh (fs.mtime b.path) b).1.last_modified
          = fs.mtime (Pathed.refresh (fs.mtime b.path) b).1.path then 0
          else 1) = 0 := by
        rw [hb.1, hb.2.1]
        simp
      have hcs0 : Directory.unsyncedCountList digest fs subs = 0 := by
        omega
      have hcf0 : File.unsyncedCountList digest fs fls = 0 := by
        omega
      rw [hpr2, dirLoop_all_skip digest fs subs,
        fileLoop_all_skip digest fs fls]
      constructor
      · simp only [if_neg hm]
        constructor
        · intro _
          omega
        · intro _
          trivial
      · rw [hbsync, hcs0, hcf0]

theorem dirLoop_spec (digest : List Nat → String) (fs : LiveFS) :
    (ds : List Directory) → Directory.unsyncedCountList digest fs ds ≤ 1 →
      ((Directory.refreshLoop digest fs false ds).2 = true
        ↔ Directory.unsyncedCountList digest fs ds = 1)
      ∧ Directory.unsyncedCountList digest fs
          (Directory.refreshLoop digest fs false ds).1 = 0
  | [] => fun _ => by
    simp [Directory.refreshLoop, Directory.unsyncedCountList]
  | d :: ds => fun h => by
    rw [Directory.unsyncedCountList_cons] at h
    simp only [dirLoop_cons_active,
      Directory.unsyncedCountList_cons]
    have hd1 : Directory.unsyncedCount digest fs d ≤ 1 := by
      omega
    have ihd := dir_refresh_spec digest fs d hd1
    by_cases hd2 : (Directory.refresh digest fs d).2 = true
    · have hcd : Directory.unsyncedCount digest fs d = 1 := ihd.1.mp hd2
      have hds0 : Directory.unsyncedCountList digest fs ds = 0 := by
        omega
      rw [hd2, dirLoop_all_skip digest fs ds]
      constructor
      · constructor
        · intro _
          omega
        · intro _
          trivial
      · rw [ihd.2, hds0]
    · have hd2f : (Directory.refresh digest fs d).2 = false := by
        revert hd2
        cases (Directory.refresh digest fs d).2 <;> simp
      have hcd0 : Directory.unsyncedCount digest fs d = 0 := by
        have hne : ¬ Directory.unsyncedCount digest fs d = 1 := by
          intro h1
          exact hd2 (ihd.1.mpr h1)
        omega
      have hds1 : Directory.unsyncedCountList digest fs ds ≤ 1 := by
        omega
      have ihds := dirLoop_spec digest fs ds hds1
      rw [hd2f]
      constructor
      · rw [ihds.1]
        omega
      · rw [ihd.2, ihds.2]
end

/-- Claim C3 (amended): over a live filesystem with which at most one node
of the tree is out of sync -- in particular a tree whose stored state was
just snapshotted (zero nodes out of sync), or such a tree after a
modification-time edit of exactly one tracked node (one node out of sync)
-- refresh() returns true iff exactly one node is out of sync, leaves every
node in sync, and a second call with no further change returns false: the
detected change is reported exactly once because refresh records the newly
observed state.  With no pending change both calls return false.  The
at-most-one restriction is forced by the counterexample above: the claim as
stated fails when a change is already pending before the first call (and,
because the or short-circuits, two pending changes can even make two
successive calls return true). -/
theorem C3_refresh_reports_once (digest : List Nat → String) (fs : LiveFS)
    (t : Directory) (h : Directory.unsyncedCount digest fs t ≤ 1) :
    ((Directory.refresh digest fs t).2 = true
      ↔ Directory.unsyncedCount digest fs t = 1)
    ∧ Directory.unsyncedCount digest fs (Directory.refresh digest fs t).1 = 0
    ∧ (Directory.refresh digest fs (Directory.refresh digest fs t).1).2
        = false := by
  have h1 := dir_refresh_spec digest fs t h
  have h0 : Directory.unsyncedCount digest fs
      (Directory.refresh digest fs t).1 ≤ 1 := by
    rw [h1.2]
    omega
  have h2 := dir_refresh_spec digest fs (Directory.refresh digest fs t).1 h0
  refine ⟨h1.1, h1.2, ?_⟩
  cases hflag : (Directory.refresh digest fs
      (Directory.refresh digest fs t).1).2 with
  | false => rfl
  | true =>
    have hc := h2.1.mp hflag
    rw [h1.2] at hc
    simp at hc

theorem C3_refresh_reports_once_witness :
    (Directory.refresh dg0 fsAll1 tC3w).2 = true
    ∧ (Directory.refresh dg0 fsAll1 (Directory.refresh dg0 fsAll1 tC3w).1).2
        = false :=
  ⟨(C3_refresh_reports_once dg0 fsAll1 tC3w (by decide)).1.mpr (by decide),
    (C3_refresh_reports_once dg0 fsAll1 tC3w (by decide)).2.2⟩
